import Mathlib

/-
  Verification of the GhostPrice price-history resolution and deal-scoring
  engine, as implemented in the repository.

  Shallow embedding conventions:
  * Prices and the fractional constants of the code (1.01, 0.95, 1.15, ...)
    are modelled as rationals (ℚ); Python floats at these magnitudes behave
    exactly on the comparisons the code performs.
  * Confidence values are kept on the scale of the code itself (integers out of
    100 in src/archive/price_tracker.py, fractions in src/price_tracker.py);
    the 0-1 scale of the specification corresponds to the percent scale by
    dividing by 100 (0.95 of the spec is 95 in the code).
  * SQL TEXT/timestamp values are ISO-8601 strings; SQL compares them
    lexicographically, which is chronologically correct for that format.
    We model them as Lean strings with an explicit byte-lexicographic
    comparison `tsLt`, and model the rendered boundary value
    datetime(now, -days) / NOW() - INTERVAL as an opaque
    `cutoff` string parameter.
  * Human-readable message/reason strings built with f-string number
    formatting are display-only and are elided from the verdict records;
    every branch of the code is distinguished by the retained fields
    (action, confidence, color, urgency, flags).
  * External effects (the Apify HTTP fetch, database failures) are
    modelled as explicit oracle parameters: the fetch outcome is an
    `Option` argument, a storage failure is a `FailPoint` argument.
-/

namespace GhostPrice

/-- Lexicographic comparison of charlists by code point; models SQL/Python
ordering of ISO-8601 timestamp strings. -/
def charListLt : List Char → List Char → Bool
  | [], [] => false
  | [], _ :: _ => true
  | _ :: _, [] => false
  | a :: as, b :: bs =>
    if a.toNat < b.toNat then true
    else if b.toNat < a.toNat then false
    else charListLt as bs

/-- Timestamp-string comparison used for the SQL predicates
`timestamp > datetime(...)` and `ORDER BY timestamp DESC`. -/
def tsLt (a b : String) : Bool := charListLt a.data b.data

/-- Does `needle` start `hay`? (helper for substring containment). -/
def startsList (needle hay : List Char) : Bool :=
  match needle, hay with
  | [], _ => true
  | _ :: _, [] => false
  | a :: as, b :: bs => a == b && startsList as bs

/-- Substring containment on charlists; models the Python `in` operator on
strings. -/
def hasSubList (needle : List Char) : List Char → Bool
  | [] => startsList needle []
  | b :: bs => startsList needle (b :: bs) || hasSubList needle bs

/-- Models Python `needle in hay` for strings. -/
def strContains (needle hay : String) : Bool := hasSubList needle.data hay.data

/-- Models Python `str.upper()` (the marketplace codes involved are ASCII). -/
def strUpper (s : String) : String := ⟨s.data.map Char.toUpper⟩

/-- Round-half-to-even to an integer; the rounding mode of Python `round`. -/
def roundHalfEven (x : ℚ) : ℤ :=
  let f : ℤ := ⌊x⌋
  let frac : ℚ := x - f
  if frac < 1/2 then f
  else if 1/2 < frac then f + 1
  else if f % 2 = 0 then f else f + 1

/-- Models Python `round(x, d)`. -/
def roundTo (d : ℕ) (x : ℚ) : ℚ := (roundHalfEven (x * 10 ^ d) : ℚ) / 10 ^ d

namespace Archive
/-
  Embedding of src/archive/price_tracker.py: the sqlite-backed
  PriceTracker with the history-import fallback chain and the
  confidence-scored judges.
-/

/-- A row of the sqlite `price_history` table
(columns asin, price, currency, timestamp, source).  The `source` column is
nullable: the importer binds Python `None` when the fetched history list is
empty. -/
structure Row where
  asin : String
  price : ℚ
  currency : String
  timestamp : String
  source : Option String
deriving DecidableEq

/-- One point of a fetched external history:
`{"timestamp": ..., "price": ...}`. -/
structure PricePoint where
  timestamp : String
  price : ℚ
deriving DecidableEq

/-- The dictionary returned by `get_apify_price_history` (built by
`ApifyClient._parse_apify_response`); only the fields the tracker reads. -/
structure ApifyData where
  asin : String
  title : String
  current_price : ℚ
  price_history : List PricePoint
  min_price : ℚ
  max_price : ℚ
  avg_price : ℚ
  data_points : ℕ
deriving DecidableEq

/-- The statistics dictionary returned by
`PriceTracker.get_price_stats`. -/
structure Stats where
  current : ℚ
  min_30d : ℚ
  max_30d : ℚ
  avg_30d : ℚ
  is_lowest : Bool
  is_highest : Bool
  data_points : ℕ
  price_range : ℚ
  volatility : ℚ
  source : String
deriving DecidableEq

/-- The dictionary returned by `PriceTracker.get_buy_recommendation`
(keys absent in a branch are `none`; the f-string `reason` text is
display-only and elided). -/
structure BuyRec where
  action : String
  confidence : ℕ
  color : String
  urgency : Option String := none
  expected_price : Option ℚ := none
deriving DecidableEq

/-- The dictionary returned by `PriceTracker.detect_fake_discount`
(keys absent in a branch are `none`; `message`/`reason` text elided). -/
structure DiscountVerdict where
  is_fake : Bool
  verified : Bool
  real_avg_price : Option ℚ := none
  inflated_price : Option ℚ := none
  current_price : Option ℚ := none
  claimed_discount_pct : Option ℚ := none
  real_discount_pct : Option ℚ := none
  savings_vs_avg : Option ℚ := none
  is_best_price : Option Bool := none
  is_good_deal : Option Bool := none
  is_average : Option Bool := none
deriving DecidableEq

/-- Models the de-duplication query
`SELECT id FROM price_history WHERE asin = ? AND timestamp = ?`. -/
def rowExists (store : List Row) (asin ts : String) : Bool :=
  store.any (fun r => r.asin == asin && r.timestamp == ts)

/-- One iteration of the loop of `import_price_history_to_db`:
`if not existing and price_point.get("price", 0) > 0: INSERT ...`. -/
def insertStep (asin currency : String) (src : Option String)
    (store : List Row) (p : PricePoint) : List Row :=
  if !rowExists store asin p.timestamp && decide (0 < p.price) then
    store ++ [⟨asin, p.price, currency, p.timestamp, src⟩]
  else store

/-- The whole insertion loop of `import_price_history_to_db`. -/
def insertAll (asin currency : String) (src : Option String)
    (store : List Row) (pts : List PricePoint) : List Row :=
  pts.foldl (insertStep asin currency src) store

/-- Result of `import_price_history_to_db`: whether the premium provider
(Apify) was called, the returned boolean, and the store afterwards. -/
structure ImportResult where
  called : Bool
  ok : Bool
  store : List Row
deriving DecidableEq

/-- Models `PriceTracker.import_price_history_to_db`.  The outcome of the
`get_apify_price_history` network call is the oracle argument `fetch`;
the call only happens when `country.upper() == "US"`.  A `fetch` of `none`
covers every failure mode of the client (no token, quota, timeout,
unusable response). -/
def priceHistoryImport (store : List Row) (fetch : Option ApifyData)
    (asin country : String) : ImportResult :=
  -- history_data is None unless country.upper() == "US" put the fetch result there
  match (if (strUpper country == "US" : Bool) then fetch else none) with
  | none => ⟨strUpper country == "US", false, store⟩  -- "Will rely on crowdsourcing only"
  | some d =>
      -- `source` is set only under `if history_data and history_data.get("price_history")`;
      -- currency is `"INR" if country == "IN" else "USD"`
      ⟨strUpper country == "US", true,
       insertAll asin (if country == "IN" then "INR" else "USD")
         (if d.price_history.isEmpty then none else some "apify_import")
         store d.price_history⟩

/-- The window query
`SELECT price, timestamp FROM price_history WHERE asin = ? AND timestamp >
datetime(now, -N days)` before ordering. -/
def windowRows (store : List Row) (asin cutoff : String) : List Row :=
  store.filter (fun r => r.asin == asin && tsLt cutoff r.timestamp)

/-- Insert into a timestamp-descending list, keeping it descending. -/
def insertDesc (r : Row) : List Row → List Row
  | [] => [r]
  | x :: xs =>
    if tsLt r.timestamp x.timestamp then x :: insertDesc r xs
    else r :: x :: xs

/-- Models `ORDER BY timestamp DESC` (tie order between equal timestamps is
unspecified in SQL). -/
def sortDesc (l : List Row) : List Row := l.foldr insertDesc []

/-- The statistics record built from local data
(the `len(history) >= 5` branch of `get_price_stats`). -/
def statsOfLocal (history : List Row) : Option Stats :=
  match history.map (fun r => r.price) with
  | [] => none
  | p :: ps =>
    let prices := p :: ps
    let minP := ps.foldl min p
    let maxP := ps.foldl max p
    some {
      current := p,
      min_30d := minP,
      max_30d := maxP,
      avg_30d := prices.sum / (prices.length : ℚ),
      is_lowest := decide (p = minP),
      is_highest := decide (p = maxP),
      data_points := prices.length,
      price_range := maxP - minP,
      volatility :=
        if 0 < prices.sum then
          ((maxP - minP) / (prices.sum / (prices.length : ℚ))) * 100
        else 0,
      source := "Local Database" }

/-- The statistics record built after a successful import
(the `len(history) >= 2` branch of `get_price_stats`). -/
def statsOfImported (history : List Row) (label : String) : Option Stats :=
  match history.map (fun r => r.price) with
  | [] => none
  | p :: ps =>
    let prices := p :: ps
    let minP := ps.foldl min p
    let maxP := ps.foldl max p
    let avgP := prices.sum / (prices.length : ℚ)
    some {
      current := p,
      min_30d := minP,
      max_30d := maxP,
      avg_30d := avgP,
      is_lowest := decide (p = minP),
      is_highest := decide (p = maxP),
      data_points := prices.length,
      price_range := maxP - minP,
      volatility := if 0 < avgP then ((maxP - minP) / avgP) * 100 else 0,
      source := label }

/-- Models the `data_source` computation after an import:
`SELECT source FROM price_history WHERE asin = ? LIMIT 1` followed by the
substring tests.  (In the code a NULL source column would raise a
`TypeError` in `"apify" in source_row[0]`; that column is never NULL on
this path, and the model keeps the default label there.) -/
def dataSourceLabel (store : List Row) (asin : String) : String :=
  match (store.filter (fun r => r.asin == asin)).head? with
  | none => "Crowdsourced"
  | some r =>
    match r.source with
    | none => "Crowdsourced"
    | some s =>
      if strContains "apify" s then "Apify (Historical)"
      else if strContains "scraper" s then "Bootstrapped (Scraper)"
      else "Crowdsourced"

/-- Result of `get_price_stats`: the statistics (None = insufficient data),
the store afterwards, and whether the premium provider was called during
the computation. -/
structure GPSResult where
  stats : Option Stats
  store : List Row
  premiumCalled : Bool
deriving DecidableEq

/-- Models `PriceTracker.get_price_stats` of src/archive/price_tracker.py.
The Python guard `if history and len(history) >= 5` is `5 ≤ length` (a
list of length ≥ 5 is truthy); likewise `if history and len(history) >= 2`.
Both queries use the same rendered `cutoff` boundary. -/
def getPriceStats (store : List Row) (fetch : Option ApifyData)
    (asin cutoff : String) (use_keepa : Bool) (country : String) : GPSResult :=
  let history := sortDesc (windowRows store asin cutoff)
  if 5 ≤ history.length then
    ⟨statsOfLocal history, store, false⟩
  else if use_keepa then
    let ir := priceHistoryImport store fetch asin country
    if ir.ok then
      let history2 := sortDesc (windowRows ir.store asin cutoff)
      if 2 ≤ history2.length then
        ⟨statsOfImported history2 (dataSourceLabel ir.store asin),
         ir.store, ir.called⟩
      else ⟨none, ir.store, ir.called⟩
    else ⟨none, ir.store, ir.called⟩
  else ⟨none, store, false⟩

/-- Models the body of `PriceTracker.get_buy_recommendation` after the
`stats = self.get_price_stats(asin)` lookup (the judge is a pure function
of the statistics snapshot and the current price). -/
def getBuyRecommendation (stats : Option Stats) (current_price : ℚ) : BuyRec :=
  match stats with
  | none =>
      { action := "track", confidence := 50, color := "gray" }
  | some s =>
      if current_price ≤ s.min_30d then
        { action := "buy_now", confidence := 95, color := "green",
          urgency := some "high" }
      else if current_price ≤ s.avg_30d * 0.95 then
        { action := "good_deal", confidence := 80, color := "green",
          urgency := some "medium" }
      else if s.avg_30d * 1.15 ≤ current_price then
        { action := "wait", confidence := 85, color := "orange",
          urgency := some "low", expected_price := some (roundTo 2 s.avg_30d) }
      else if s.max_30d * 0.95 ≤ current_price then
        { action := "wait", confidence := 90, color := "red",
          urgency := some "very_low", expected_price := some (roundTo 2 s.avg_30d) }
      else
        { action := "neutral", confidence := 65, color := "yellow",
          urgency := some "medium" }

/-- Models the body of `PriceTracker.detect_fake_discount` after the stats
lookup, with total division: with `max_30d = 0` the Python raises
`ZeroDivisionError` in `real_discount` where the total division of Lean
returns 0.  That exception path is modelled explicitly by
`detectFakeDiscountChecked` below; this version is used only where the
value of a returned verdict is asserted. -/
def detectFakeDiscount (stats : Option Stats)
    (current_price claimed_discount_pct : ℚ) : DiscountVerdict :=
  match stats with
  | none =>
      { is_fake := false, verified := false }
  | some s =>
      if s.avg_30d * 1.15 < s.max_30d then
        let real_discount := ((s.max_30d - current_price) / s.max_30d) * 100
        { is_fake := true, verified := true,
          real_avg_price := some (roundTo 2 s.avg_30d),
          inflated_price := some (roundTo 2 s.max_30d),
          current_price := some current_price,
          claimed_discount_pct := some claimed_discount_pct,
          real_discount_pct := some (roundTo 1 real_discount),
          savings_vs_avg := some (roundTo 2 (s.avg_30d - current_price)) }
      else if current_price ≤ s.min_30d then
        { is_fake := false, verified := true, is_best_price := some true }
      else if current_price ≤ s.avg_30d * 0.95 then
        { is_fake := false, verified := true, is_good_deal := some true }
      else
        { is_fake := false, verified := true, is_average := some true }

/-- Models the body of `PriceTracker.detect_fake_discount` with its
exception path explicit: `none` is the `ZeroDivisionError` Python raises
while computing `real_discount = ((max_30d - current_price) / max_30d) * 100`
when `max_30d = 0` — reachable only through non-positive tracked prices,
which `track_price` does not validate.  Everywhere else the function
returns `some` verdict. -/
def detectFakeDiscountChecked (stats : Option Stats)
    (current_price claimed_discount_pct : ℚ) : Option DiscountVerdict :=
  match stats with
  | none =>
      some { is_fake := false, verified := false }
  | some s =>
      if s.avg_30d * 1.15 < s.max_30d then
        if s.max_30d = 0 then none  -- ZeroDivisionError in real_discount
        else
          some
            { is_fake := true, verified := true,
              real_avg_price := some (roundTo 2 s.avg_30d),
              inflated_price := some (roundTo 2 s.max_30d),
              current_price := some current_price,
              claimed_discount_pct := some claimed_discount_pct,
              real_discount_pct :=
                some (roundTo 1 (((s.max_30d - current_price) / s.max_30d) * 100)),
              savings_vs_avg := some (roundTo 2 (s.avg_30d - current_price)) }
      else if current_price ≤ s.min_30d then
        some { is_fake := false, verified := true, is_best_price := some true }
      else if current_price ≤ s.avg_30d * 0.95 then
        some { is_fake := false, verified := true, is_good_deal := some true }
      else
        some { is_fake := false, verified := true, is_average := some true }

end Archive

namespace Live
/-
  Embedding of src/price_tracker.py: the PostgreSQL-backed PriceTracker.
-/

/-- A row of the `price_history` table of the live schema. -/
structure HRow where
  asin : String
  price : ℚ
  currency : String
  marketplace : String
  source : String
  timestamp : String
deriving DecidableEq

/-- A row of the `tracked_products` table (the columns `track_price`
touches). -/
structure TrackedRow where
  asin : String
  last_updated_at : String
  currency : String
  marketplace : String
deriving DecidableEq

/-- The two tables `track_price` writes. -/
structure DB where
  tracked : List TrackedRow
  history : List HRow
deriving DecidableEq

/-- Where, if anywhere, the storage layer raises during `track_price`:
at the upsert statement, at the history insert, or at commit. -/
inductive FailPoint where
  | ok
  | atUpsert
  | atInsert
  | atCommit
deriving DecidableEq

/-- Models the statement
`INSERT INTO tracked_products ... ON CONFLICT(asin) DO UPDATE SET
last_updated_at = CURRENT_TIMESTAMP, currency = excluded.currency`
(on conflict the `marketplace` column is deliberately not updated). -/
def upsertTracked (tracked : List TrackedRow)
    (asin currency marketplace now : String) : List TrackedRow :=
  if tracked.any (fun r => r.asin == asin) then
    tracked.map (fun r =>
      if r.asin == asin then
        { r with last_updated_at := now, currency := currency }
      else r)
  else tracked ++ [⟨asin, now, currency, marketplace⟩]

/-- Models `PriceTracker.track_price`.  The two statements run on one
connection inside `with self._get_connection() as conn:` with an explicit
`conn.commit()`; psycopg executes them in a single transaction and the
context manager rolls back when an exception escapes, so on any failure
the durable state is returned unchanged, and the `except` clause turns the
exception into `False` (the function never raises). -/
def trackPrice (db : DB) (fail : FailPoint) (asin : String)
    (current_price : ℚ) (currency marketplace source now : String) :
    Bool × DB :=
  if fail = .atUpsert then (false, db)      -- exception at statement 1: rollback
  else
    let txn1 : DB :=
      { db with tracked := upsertTracked db.tracked asin currency marketplace now }
    if fail = .atInsert then (false, db)    -- exception at statement 2: rollback
    else
      let txn2 : DB :=
        { txn1 with history :=
            txn1.history ++ [⟨asin, current_price, currency, marketplace, source, now⟩] }
      if fail = .atCommit then (false, db)  -- exception at commit: rollback
      else (true, txn2)

/-- The statistics dictionary returned by the live
`PriceTracker.get_price_stats`. -/
structure Stats where
  current : ℚ
  min_30d : ℚ
  max_30d : ℚ
  avg_30d : ℚ
  is_lowest : Bool
  is_highest : Bool
  price_range : ℚ
  volatility : ℚ
  data_points : ℕ
  source : String
deriving DecidableEq

/-- Models the `ORDER BY timestamp DESC LIMIT 1` latest-row query (the tie
order between equal timestamps is unspecified; the model keeps the earliest
stored one). -/
def latestRow (store : List HRow) (asin : String) : Option HRow :=
  (store.filter (fun r => r.asin == asin)).foldl
    (fun acc r =>
      match acc with
      | none => some r
      | some b => if tsLt b.timestamp r.timestamp then some r else some b)
    none

/-- Models the live `PriceTracker.get_price_stats`: one aggregate query
(MIN/MAX/AVG/COUNT) over the lookback window, `None` when the window holds
zero rows, and a separate latest-row query (over the whole history, not
just the window) for the current price. -/
def getPriceStats (store : List HRow) (asin cutoff : String) : Option Stats :=
  let wrows := store.filter (fun r => r.asin == asin && tsLt cutoff r.timestamp)
  match wrows.map (fun r => r.price) with
  | [] => none                              -- the data_points aggregate is 0
  | p :: ps =>
    match latestRow store asin with
    | none => none                          -- `if not latest: return None`
    | some latest =>
      let current_price := latest.price
      let min_price := ps.foldl min p
      let max_price := ps.foldl max p
      let avg_price := (p :: ps).sum / ((p :: ps).length : ℚ)
      let price_range := max_price - min_price
      let volatility := if 0 < avg_price then price_range / avg_price * 100 else 0
      some {
        current := current_price,
        min_30d := min_price,
        max_30d := max_price,
        avg_30d := avg_price,
        is_lowest := decide (current_price ≤ min_price),
        is_highest := decide (max_price ≤ current_price),
        price_range := price_range,
        volatility := roundTo 2 volatility,
        data_points := (p :: ps).length,
        source := latest.source }

/-- The dictionary returned by the live `detect_fake_discount`
(`reason` text elided; its confidence is on a 0-1 scale in this file). -/
structure FakeCheck where
  is_fake : Bool
  confidence : ℚ
deriving DecidableEq

/-- Models the body of the live `PriceTracker.detect_fake_discount` after
the stats lookup: `is_fake` iff `current_price > avg * 1.10`. -/
def detectFakeDiscount (stats : Option Stats) (current_price : ℚ) : FakeCheck :=
  match stats with
  | none => { is_fake := false, confidence := 0 }
  | some s =>
      if s.avg_30d * 1.10 < current_price then
        { is_fake := true, confidence := 0.8 }
      else
        { is_fake := false, confidence := 0.5 }

/-- Models the body of the live `PriceTracker.get_buy_recommendation`
after the stats lookup; it returns a bare string. -/
def getBuyRecommendation (stats : Option Stats) (current_price : ℚ) : String :=
  match stats with
  | none => "UNKNOWN"
  | some s =>
      if current_price ≤ s.min_30d * 1.01 then "BUY_NOW"
      else if current_price < s.avg_30d then "GOOD_DEAL"
      else if s.avg_30d * 1.1 < current_price then "WAIT"
      else "FAIR_PRICE"

end Live

namespace Apify
/-
  Embedding of ApifyClient._parse_apify_response (src/apify_client.py).
-/

/-- One entry of the raw provider history list.  `price` is `none` when the
JSON value is null (the out-of-stock sentinel of this provider); `date`
is `none` when the key is missing (`entry.get("date", "")`). -/
structure RawEntry where
  date : Option String
  price : Option ℚ
deriving DecidableEq

/-- Models `entry.get("date", "").split("T")[0] + "T00:00:00"`. -/
def entryTimestamp (e : RawEntry) : String :=
  (⟨(e.date.getD "").data.takeWhile (fun c => c != 'T')⟩ : String) ++ "T00:00:00"

/-- Models `_parse_apify_response`.  The `entries` argument is the first
non-empty list found under the keys price_new_history / priceHistory /
price_history (`[]` when none of them holds data, which the code treats as
failure).  Null prices are skipped while building `parsed_history`;
the response is rejected (`None`) when no strictly positive price
survives the filter. -/
def parseResponse (entries : List RawEntry) (asin title : String) :
    Option Archive.ApifyData :=
  if entries.isEmpty then none            -- `if not price_history: return None`
  else
    let parsed : List Archive.PricePoint :=
      entries.filterMap (fun e =>
        e.price.map (fun p => ⟨entryTimestamp e, p⟩))
    let prices := (parsed.filter (fun q => decide (0 < q.price))).map
      (fun q => q.price)
    match prices with
    | [] => none                          -- `if not prices: return None`
    | p :: ps =>
      some {
        asin := asin,
        title := title,
        current_price := ps.getLastD p,   -- prices[-1]
        price_history := parsed,
        min_price := ps.foldl min p,
        max_price := ps.foldl max p,
        avg_price := (p :: ps).sum / ((p :: ps).length : ℚ),
        data_points := entries.length }   -- len(price_history) of the raw list

end Apify

namespace Keepa
/-
  Embedding of KeepaClient._parse_keepa_response (src/keepa_client.py).
-/

/-- One parsed Keepa point; `time` is kept in Keepa minutes (the code turns
it into `keepa_epoch + timedelta(minutes=...)`, an order-isomorphic
renaming). -/
structure Point where
  time : ℤ
  price : ℚ
deriving DecidableEq

/-- The parsed response (the fields built from the history; rank metadata
elided). -/
structure Data where
  current_price : ℚ
  price_history : List Point
  min_price : ℚ
  max_price : ℚ
  avg_price : ℚ
  data_points : ℕ
deriving DecidableEq

/-- Splits the flat csv array `[time, price, time, price, ...]` into pairs,
dropping a trailing unpaired element (`if i + 1 >= len: break`). -/
def pairs : List ℤ → List (ℤ × ℤ)
  | t :: p :: rest => (t, p) :: pairs rest
  | _ => []

/-- The parse loop: each pair becomes a point unless the price is the
out-of-stock sentinel `-1`; prices are stored as integer cents and divided
by 100. -/
def parseHistory (csv : List ℤ) : List Point :=
  (pairs csv).filterMap (fun tp =>
    if tp.2 = -1 then none else some ⟨tp.1, (tp.2 : ℚ) / 100⟩)

/-- Models `_parse_keepa_response` on the selected csv price array
(`csv[0]`, falling back to `csv[1]`; the selection itself requires
`len >= 2`).  Returns `None` when every pair carried the sentinel. -/
def parseResponse (amazon_prices : List ℤ) : Option Data :=
  if amazon_prices.length < 2 then none
  else
    match parseHistory amazon_prices with
    | [] => none                          -- `if not price_history: return None`
    | q :: qs =>
      let prices := (q :: qs).map (fun x => x.price)
      some {
        current_price := (qs.map (fun x => x.price)).getLastD q.price,
        price_history := q :: qs,
        min_price := (qs.map (fun x => x.price)).foldl min q.price,
        max_price := (qs.map (fun x => x.price)).foldl max q.price,
        avg_price := prices.sum / (prices.length : ℚ),
        data_points := (q :: qs).length }

end Keepa

/- Helper lemmas about the embedded operations. -/

theorem length_insertDesc (r : Archive.Row) (l : List Archive.Row) :
    (Archive.insertDesc r l).length = l.length + 1 := by
  induction l with
  | nil => rfl
  | cons x xs ih =>
      unfold Archive.insertDesc
      split
      · simpa using ih
      · rfl

theorem length_sortDesc (l : List Archive.Row) :
    (Archive.sortDesc l).length = l.length := by
  induction l with
  | nil => rfl
  | cons x xs ih =>
      show (Archive.insertDesc x (Archive.sortDesc xs)).length = xs.length + 1
      rw [length_insertDesc, ih]

/- Concrete statistics records used by the verdict-table claims. -/

/-- The statistics record of the verdict-table example in the spec:
min=100, max=200, avg=150. -/
def stats100_200_150 : Archive.Stats :=
  { current := 150, min_30d := 100, max_30d := 200, avg_30d := 150,
    is_lowest := false, is_highest := false, data_points := 6,
    price_range := 100, volatility := 0, source := "Local Database" }

/-- The live-schema statistics record with min=100, max=200, avg=150. -/
def liveStats100_200_150 : Live.Stats :=
  { current := 150, min_30d := 100, max_30d := 200, avg_30d := 150,
    is_lowest := false, is_highest := false, price_range := 100,
    volatility := 0, data_points := 6, source := "extension" }

/-- The live-schema statistics record of the fake-discount example in the spec:
min=100, max=200, avg=130. -/
def liveStats100_200_130 : Live.Stats :=
  { current := 100, min_30d := 100, max_30d := 200, avg_30d := 130,
    is_lowest := true, is_highest := false, price_range := 100,
    volatility := 0, data_points := 3, source := "extension" }

/-- C1 counterexample.  At min=100, max=200, avg=150, current=195 the
archive judge answers WAIT from its above-average rule (confidence 85,
urgency "low"), not the near-peak rule (confidence 90) the claim gives,
because the code tests `>= avg * 1.15` before `>= max * 0.95`; and at
current=100.5 (within 1% of the minimum) it answers GOOD_DEAL, not
BUY_NOW, because its first rule is `current <= min` exactly, not
`min * 1.01`. -/
theorem buy_verdict_order_counterexample :
    (Archive.getBuyRecommendation (some stats100_200_150) 195).confidence = 85 ∧
    (Archive.getBuyRecommendation (some stats100_200_150) 195).urgency = some "low" ∧
    ¬ (Archive.getBuyRecommendation (some stats100_200_150) 195).confidence = 90 ∧
    (Archive.getBuyRecommendation (some stats100_200_150) 100.5).action = "good_deal" := by
  norm_num [Archive.getBuyRecommendation, stats100_200_150]

/-- C1 (amended).  The archive buy recommendation applies its rules in
this priority order, first match wins: current <= min gives BUY_NOW with
confidence 0.95 (code scale 95); else current <= avg*0.95 gives GOOD_DEAL
with confidence 0.80; else current >= avg*1.15 gives WAIT (above average)
with confidence 0.85; else current >= max*0.95 gives WAIT (near peak) with
confidence 0.90; else FAIR/NEUTRAL with confidence 0.65.  In particular,
for min=100, max=200, avg=150 and current=195 the verdict is WAIT (above
average) with confidence 0.85. -/
theorem buy_verdict_priority_order (s : Archive.Stats) (cp : ℚ) :
    (cp ≤ s.min_30d →
      Archive.getBuyRecommendation (some s) cp =
        { action := "buy_now", confidence := 95, color := "green",
          urgency := some "high" }) ∧
    (s.min_30d < cp → cp ≤ s.avg_30d * 0.95 →
      Archive.getBuyRecommendation (some s) cp =
        { action := "good_deal", confidence := 80, color := "green",
          urgency := some "medium" }) ∧
    (s.min_30d < cp → s.avg_30d * 0.95 < cp → s.avg_30d * 1.15 ≤ cp →
      Archive.getBuyRecommendation (some s) cp =
        { action := "wait", confidence := 85, color := "orange",
          urgency := some "low", expected_price := some (roundTo 2 s.avg_30d) }) ∧
    (s.min_30d < cp → s.avg_30d * 0.95 < cp → cp < s.avg_30d * 1.15 →
      s.max_30d * 0.95 ≤ cp →
      Archive.getBuyRecommendation (some s) cp =
        { action := "wait", confidence := 90, color := "red",
          urgency := some "very_low", expected_price := some (roundTo 2 s.avg_30d) }) ∧
    (s.min_30d < cp → s.avg_30d * 0.95 < cp → cp < s.avg_30d * 1.15 →
      cp < s.max_30d * 0.95 →
      Archive.getBuyRecommendation (some s) cp =
        { action := "neutral", confidence := 65, color := "yellow",
          urgency := some "medium" }) := by
  refine ⟨fun h1 => ?_, fun h1 h2 => ?_, fun h1 h2 h3 => ?_,
    fun h1 h2 h3 h4 => ?_, fun h1 h2 h3 h4 => ?_⟩ <;>
    simp only [Archive.getBuyRecommendation]
  · rw [if_pos h1]
  · rw [if_neg (not_le.mpr h1), if_pos h2]
  · rw [if_neg (not_le.mpr h1), if_neg (not_le.mpr h2), if_pos h3]
  · rw [if_neg (not_le.mpr h1), if_neg (not_le.mpr h2),
      if_neg (not_le.mpr h3), if_pos h4]
  · rw [if_neg (not_le.mpr h1), if_neg (not_le.mpr h2),
      if_neg (not_le.mpr h3), if_neg (not_le.mpr h4)]

/-- C1 witness: the amended table evaluated at min=100, max=200, avg=150,
current=195 — the above-average WAIT rule fires with confidence 85. -/
theorem buy_verdict_priority_order_witness :
    Archive.getBuyRecommendation (some stats100_200_150) 195 =
      { action := "wait", confidence := 85, color := "orange",
        urgency := some "low",
        expected_price := some (roundTo 2 stats100_200_150.avg_30d) } :=
  (buy_verdict_priority_order stats100_200_150 195).2.2.1
    (by norm_num [stats100_200_150]) (by norm_num [stats100_200_150])
    (by norm_num [stats100_200_150])

/-- C2 counterexample.  The fake-discount verdict of the live module does
depend on the current price and is not `max > avg * 1.15`: on the statistics
of the claim itself (min=100, max=200, avg=130, so max exceeds avg*1.15) it
answers is_fake=false at current=100 and is_fake=true at current=150. -/
theorem fake_discount_counterexample :
    liveStats100_200_130.avg_30d * 1.15 < liveStats100_200_130.max_30d ∧
    (Live.detectFakeDiscount (some liveStats100_200_130) 100).is_fake = false ∧
    (Live.detectFakeDiscount (some liveStats100_200_130) 150).is_fake = true := by
  norm_num [Live.detectFakeDiscount, liveStats100_200_130]

/-- C2 (amended).  The archive fake-discount verdict (the one with the
`verified` field) sets is_fake = true exactly when max > avg * 1.15, and
its is_fake does not depend on the current price or the claimed discount:
two calls with the same statistics agree.  (The simplified live-module
`detect_fake_discount` instead tests `current_price > avg * 1.10`, which
does depend on the current price — see the counterexample.) -/
theorem fake_discount_statistics_only (s : Archive.Stats) (cp cp' c c' : ℚ) :
    ((Archive.detectFakeDiscount (some s) cp c).is_fake = true ↔
      s.avg_30d * 1.15 < s.max_30d) ∧
    (Archive.detectFakeDiscount (some s) cp c).is_fake =
      (Archive.detectFakeDiscount (some s) cp' c').is_fake := by
  simp only [Archive.detectFakeDiscount]
  constructor
  · split_ifs with h1 h2 h3 <;> simp [h1]
  · by_cases h1 : s.avg_30d * 1.15 < s.max_30d
    · rw [if_pos h1, if_pos h1]
    · rw [if_neg h1, if_neg h1]
      split_ifs <;> rfl

/-- Five tracked observations of product "A" with non-positive prices;
`track_price` performs no price validation, so this store is
reachable. -/
def negStore : List Archive.Row :=
  [⟨"A", -1, "INR", "2024-01-01T00:00:00", some "extension"⟩,
   ⟨"A", -1, "INR", "2024-01-02T00:00:00", some "extension"⟩,
   ⟨"A", -1, "INR", "2024-01-03T00:00:00", some "extension"⟩,
   ⟨"A", -1, "INR", "2024-01-04T00:00:00", some "extension"⟩,
   ⟨"A", 0, "INR", "2024-01-05T00:00:00", some "extension"⟩]

/-- The statistics record the archive tracker computes from `negStore`:
max_30d = 0 and avg_30d = -4/5 < 0. -/
def statsNeg : Archive.Stats :=
  { current := 0, min_30d := -1, max_30d := 0, avg_30d := -4/5,
    is_lowest := false, is_highest := true, data_points := 5,
    price_range := 1, volatility := 0, source := "Local Database" }

/-- C7 counterexample.  The discount judge does raise for some input: on
the five tracked prices [-1, -1, -1, -1, 0] the statistics engine itself
returns a record with max_30d = 0 and avg_30d < 0, the fake-discount
branch fires (avg * 1.15 < 0 = max), and
`real_discount = ((max_30d - current_price) / max_30d) * 100` divides by
zero — Python raises ZeroDivisionError, modelled here as None. -/
theorem discount_judge_raises_counterexample :
    Archive.getPriceStats negStore none "A" "2023-12-31T00:00:00" true "IN" =
      ⟨some statsNeg, negStore, false⟩ ∧
    statsNeg.avg_30d * 1.15 < statsNeg.max_30d ∧
    statsNeg.max_30d = 0 ∧
    Archive.detectFakeDiscountChecked (some statsNeg) 0 0 = none := by
  have hw : Archive.sortDesc
      (Archive.windowRows negStore "A" "2023-12-31T00:00:00") =
      [⟨"A", 0, "INR", "2024-01-05T00:00:00", some "extension"⟩,
       ⟨"A", -1, "INR", "2024-01-04T00:00:00", some "extension"⟩,
       ⟨"A", -1, "INR", "2024-01-03T00:00:00", some "extension"⟩,
       ⟨"A", -1, "INR", "2024-01-02T00:00:00", some "extension"⟩,
       ⟨"A", -1, "INR", "2024-01-01T00:00:00", some "extension"⟩] := rfl
  refine ⟨?_, by norm_num [statsNeg], rfl, ?_⟩
  · simp only [Archive.getPriceStats, hw]
    rw [if_pos (by norm_num)]
    norm_num [Archive.statsOfLocal, statsNeg, min_def, max_def,
      decide_eq_false_iff_not]
  · simp only [Archive.detectFakeDiscountChecked]
    rw [if_pos (by norm_num [statsNeg]),
      if_pos (show statsNeg.max_30d = 0 from rfl)]

/-- C7 (amended).  When the window of the resulting store holds zero
observations, the archive statistics result is None (never a zero-filled
record); on absent statistics the buy verdict is "track" with confidence
0.5 (code scale 50) and the discount verdict has verified = false.  The
buy judge is total — it always produces one of the five known verdicts —
but the discount judge is not exception-free for arbitrary statistics:
its exception path (ZeroDivisionError, modelled as None) is taken
exactly when the fake-discount branch fires on a record with
max_30d = 0, and for every record with max_30d ≠ 0 it returns the
verdict of the total-division model. -/
theorem absent_safety (store : List Archive.Row)
    (fetch : Option Archive.ApifyData) (asin cutoff : String) (uk : Bool)
    (country : String) (cp c : ℚ) (stats : Option Archive.Stats)
    (s : Archive.Stats) :
    (Archive.windowRows
        (Archive.getPriceStats store fetch asin cutoff uk country).store
        asin cutoff = [] →
      (Archive.getPriceStats store fetch asin cutoff uk country).stats = none) ∧
    Archive.getBuyRecommendation none cp =
      { action := "track", confidence := 50, color := "gray" } ∧
    Archive.detectFakeDiscountChecked none cp c =
      some { is_fake := false, verified := false } ∧
    (Archive.getBuyRecommendation stats cp).action ∈
      (["track", "buy_now", "good_deal", "wait", "neutral"] : List String) ∧
    (Archive.detectFakeDiscountChecked (some s) cp c = none ↔
      s.avg_30d * 1.15 < s.max_30d ∧ s.max_30d = 0) ∧
    (s.max_30d ≠ 0 →
      Archive.detectFakeDiscountChecked (some s) cp c =
        some (Archive.detectFakeDiscount (some s) cp c)) := by
  refine ⟨?_, rfl, rfl, ?_, ?_, ?_⟩
  · intro h
    simp only [Archive.getPriceStats] at h ⊢
    split_ifs at h ⊢ with h5 huk hok h2
    · exfalso
      simp only [] at h
      rw [h] at h5
      simp [Archive.sortDesc] at h5
    · exfalso
      simp only [] at h
      rw [h] at h2
      simp [Archive.sortDesc] at h2
    · rfl
    · rfl
    · rfl
  · cases stats with
    | none => simp [Archive.getBuyRecommendation]
    | some s' =>
        simp only [Archive.getBuyRecommendation]
        split_ifs <;> simp
  · simp only [Archive.detectFakeDiscountChecked]
    split_ifs with h1 h2 h3 h4 <;> simp_all
  · intro hmax
    simp only [Archive.detectFakeDiscountChecked, Archive.detectFakeDiscount]
    split_ifs <;> rfl

/-- C7 witness: the empty store — zero observations, statistics None,
"track" verdict, unverified discount verdict — and, on statistics away
from the division-by-zero case (max_30d = 200), the checked discount
judge returning a verdict. -/
theorem absent_safety_witness :
    (Archive.getPriceStats [] none "B00EXAMPLE" "2024-01-01T00:00:00" true
        "IN").stats = none ∧
    Archive.getBuyRecommendation none 100 =
      { action := "track", confidence := 50, color := "gray" } ∧
    Archive.detectFakeDiscountChecked none 100 0 =
      some { is_fake := false, verified := false } ∧
    Archive.detectFakeDiscountChecked (some stats100_200_150) 100 0 =
      some (Archive.detectFakeDiscount (some stats100_200_150) 100 0) := by
  have h := absent_safety [] none "B00EXAMPLE" "2024-01-01T00:00:00" true "IN"
    100 0 none stats100_200_150
  exact ⟨h.1 rfl, h.2.1, h.2.2.1,
    h.2.2.2.2.2 (by norm_num [stats100_200_150])⟩

/-- C8 counterexample.  For min=100, max=200, avg=150 and current=140 the
archive judge answers GOOD_DEAL (140 <= avg*0.95 = 142.5), not
FAIR/NEUTRAL as the claim states; the live judge agrees ("GOOD_DEAL"). -/
theorem fair_at_140_counterexample :
    (Archive.getBuyRecommendation (some stats100_200_150) 140).action =
      "good_deal" ∧
    ¬ (Archive.getBuyRecommendation (some stats100_200_150) 140).action =
      "neutral" ∧
    Live.getBuyRecommendation (some liveStats100_200_150) 140 = "GOOD_DEAL" := by
  have h : (Archive.getBuyRecommendation (some stats100_200_150) 140).action =
      "good_deal" := by
    norm_num [Archive.getBuyRecommendation, stats100_200_150]
  refine ⟨h, ?_, ?_⟩
  · rw [h]; decide
  · norm_num [Live.getBuyRecommendation, liveStats100_200_150]

/-- C8 (amended).  For min=100, max=200, avg=150 the verdict at
current=140 is GOOD_DEAL with confidence 0.80 (140 is below
avg*0.95 = 142.5); a FAIR/NEUTRAL verdict arises in the gap, e.g. at
current=145. -/
theorem verdict_at_140 :
    (Archive.getBuyRecommendation (some stats100_200_150) 140).action =
      "good_deal" ∧
    (Archive.getBuyRecommendation (some stats100_200_150) 140).confidence = 80 ∧
    (Archive.getBuyRecommendation (some stats100_200_150) 145).action =
      "neutral" := by
  refine ⟨?_, ?_, ?_⟩ <;>
    norm_num [Archive.getBuyRecommendation, stats100_200_150]

/- Concrete stores used by the statistics-flag claims. -/

/-- A store whose product "A" rose from 100 to 101 (latest) and whose
product "B" fell from 102 to 101 (latest). -/
def liveStoreC3 : List Live.HRow :=
  [⟨"A", 100, "INR", "IN", "extension", "2024-01-01T00:00:00"⟩,
   ⟨"A", 101, "INR", "IN", "extension", "2024-01-02T00:00:00"⟩,
   ⟨"B", 102, "INR", "IN", "extension", "2024-01-01T00:00:00"⟩,
   ⟨"B", 101, "INR", "IN", "extension", "2024-01-02T00:00:00"⟩]

/-- A cutoff below every timestamp of `liveStoreC3`. -/
def cutC3 : String := "2023-12-31T00:00:00"

/-- C3 counterexample.  The boundary flags are exact, not 1%-tolerant:
for product "A" (min=100, current=101) the claimed formula
`current <= min * 1.01` holds yet `is_lowest` is false; for product "B"
(max=102, current=101) the claimed formula `current >= max * 0.99` holds
yet `is_highest` is false. -/
theorem epsilon_flags_counterexample :
    ((Live.getPriceStats liveStoreC3 "A" cutC3).map
        (fun s => (s.is_lowest, s.current, s.min_30d))) =
      some (false, 101, 100) ∧
    (101 : ℚ) ≤ 100 * 1.01 ∧
    ((Live.getPriceStats liveStoreC3 "B" cutC3).map
        (fun s => (s.is_highest, s.current, s.max_30d))) =
      some (false, 101, 102) ∧
    (102 : ℚ) * 0.99 ≤ 101 :=
  ⟨rfl, by norm_num, rfl, by norm_num⟩

/-- C3 (amended).  The boundary flags in the statistics record use exact
comparison, with no epsilon tolerance: `is_lowest` is true iff
current_price <= min and `is_highest` is true iff current_price >= max
(there is no EPSILON constant in the code). -/
theorem boundary_flags_exact (store : List Live.HRow) (asin cutoff : String)
    (s : Live.Stats) (h : Live.getPriceStats store asin cutoff = some s) :
    (s.is_lowest = true ↔ s.current ≤ s.min_30d) ∧
    (s.is_highest = true ↔ s.max_30d ≤ s.current) := by
  simp only [Live.getPriceStats] at h
  cases hw : (store.filter fun r =>
      r.asin == asin && tsLt cutoff r.timestamp).map (fun r => r.price) with
  | nil => rw [hw] at h; exact absurd h (by simp)
  | cons p ps =>
      rw [hw] at h
      cases hl : Live.latestRow store asin with
      | none => rw [hl] at h; exact absurd h (by simp)
      | some latest =>
          rw [hl] at h
          simp only [Option.some.injEq] at h
          subst h
          constructor <;> simp

/-- A one-row store for the C3 witness. -/
def liveStore1 : List Live.HRow :=
  [⟨"A", 100, "INR", "IN", "extension", "2024-01-05T00:00:00"⟩]

/-- The statistics record the live tracker computes on `liveStore1`. -/
def liveStatsW : Live.Stats :=
  { current := 100, min_30d := 100, max_30d := 100, avg_30d := 100,
    is_lowest := true, is_highest := true, price_range := 0,
    volatility := 0, data_points := 1, source := "extension" }

/-- C3 witness: the exact-comparison flag equivalence evaluated on a
concrete one-row store. -/
theorem boundary_flags_exact_witness :
    Live.getPriceStats liveStore1 "A" cutC3 = some liveStatsW ∧
    (liveStatsW.is_lowest = true ↔ liveStatsW.current ≤ liveStatsW.min_30d) ∧
    (liveStatsW.is_highest = true ↔ liveStatsW.max_30d ≤ liveStatsW.current) := by
  have hEval : Live.getPriceStats liveStore1 "A" cutC3 = some liveStatsW := by
    have hfil : (liveStore1.filter fun r =>
        r.asin == "A" && tsLt cutC3 r.timestamp) = liveStore1 := rfl
    have hfil2 : (liveStore1.filter fun r => r.asin == "A") = liveStore1 := rfl
    simp only [Live.getPriceStats, Live.latestRow, hfil, hfil2]
    norm_num [liveStore1, liveStatsW, roundTo, roundHalfEven]
  exact ⟨hEval, (boundary_flags_exact liveStore1 "A" cutC3 liveStatsW hEval).1,
    (boundary_flags_exact liveStore1 "A" cutC3 liveStatsW hEval).2⟩

/- Lemmas about the de-duplicating import loop. -/

theorem rowExists_insertStep (asin currency : String) (src : Option String)
    (store : List Archive.Row) (p : Archive.PricePoint) (a t : String)
    (h : Archive.rowExists store a t = true) :
    Archive.rowExists (Archive.insertStep asin currency src store p) a t = true := by
  unfold Archive.insertStep
  split
  · simp only [Archive.rowExists, List.any_append, Bool.or_eq_true] at h ⊢
    exact Or.inl h
  · exact h

theorem rowExists_insertAll (asin currency : String) (src : Option String)
    (pts : List Archive.PricePoint) :
    ∀ (store : List Archive.Row) (a t : String),
      Archive.rowExists store a t = true →
      Archive.rowExists (Archive.insertAll asin currency src store pts) a t = true := by
  induction pts with
  | nil => intro store a t h; exact h
  | cons q qs ih =>
      intro store a t h
      exact ih _ a t (rowExists_insertStep asin currency src store q a t h)

theorem rowExists_self_insertAll (asin currency : String) (src : Option String)
    (pts : List Archive.PricePoint) :
    ∀ (store : List Archive.Row) (p : Archive.PricePoint), p ∈ pts → 0 < p.price →
      Archive.rowExists (Archive.insertAll asin currency src store pts) asin
        p.timestamp = true := by
  induction pts with
  | nil => intro store p hp; exact absurd hp (by simp)
  | cons q qs ih =>
      intro store p hp hpos
      rcases List.mem_cons.mp hp with rfl | hp'
      · by_cases hex : Archive.rowExists store asin p.timestamp = true
        · exact rowExists_insertAll asin currency src qs _ asin p.timestamp
            (rowExists_insertStep asin currency src store p asin p.timestamp hex)
        · have hstep : Archive.insertStep asin currency src store p =
              store ++ [⟨asin, p.price, currency, p.timestamp, src⟩] := by
            unfold Archive.insertStep
            rw [if_pos]
            simp only [Bool.not_eq_true] at hex
            simp [hex, hpos]
          have hbase : Archive.rowExists
              (store ++ [⟨asin, p.price, currency, p.timestamp, src⟩]) asin
              p.timestamp = true := by
            simp [Archive.rowExists]
          show Archive.rowExists
            (Archive.insertAll asin currency src
              (Archive.insertStep asin currency src store p) qs) asin
            p.timestamp = true
          rw [hstep]
          exact rowExists_insertAll asin currency src qs _ asin p.timestamp hbase
      · exact ih _ p hp' hpos

theorem insertAll_no_op (asin currency : String) (src : Option String)
    (pts : List Archive.PricePoint) :
    ∀ store : List Archive.Row,
      (∀ p ∈ pts, 0 < p.price → Archive.rowExists store asin p.timestamp = true) →
      Archive.insertAll asin currency src store pts = store := by
  induction pts with
  | nil => intro store _; rfl
  | cons q qs ih =>
      intro store h
      have hq : Archive.insertStep asin currency src store q = store := by
        unfold Archive.insertStep
        by_cases hpos : 0 < q.price
        · rw [if_neg]
          simp [h q (by simp) hpos]
        · rw [if_neg]
          simp [hpos]
      show Archive.insertAll asin currency src
        (Archive.insertStep asin currency src store q) qs = store
      rw [hq]
      exact ih store (fun p hp hpos => h p (by simp [hp]) hpos)

theorem insertAll_idem (asin currency : String) (src : Option String)
    (store : List Archive.Row) (pts : List Archive.PricePoint) :
    Archive.insertAll asin currency src
      (Archive.insertAll asin currency src store pts) pts =
    Archive.insertAll asin currency src store pts :=
  insertAll_no_op asin currency src pts _
    (fun p hp hpos => rowExists_self_insertAll asin currency src pts store p hp hpos)

theorem mem_insertAll (asin currency : String) (src : Option String)
    (pts : List Archive.PricePoint) :
    ∀ (store : List Archive.Row) (r : Archive.Row),
      r ∈ Archive.insertAll asin currency src store pts →
      r ∈ store ∨ ∃ p ∈ pts, 0 < p.price ∧
        r = ⟨asin, p.price, currency, p.timestamp, src⟩ := by
  induction pts with
  | nil => intro store r h; exact Or.inl h
  | cons q qs ih =>
      intro store r h
      rcases ih _ r h with h' | ⟨p, hp, hpos, rfl⟩
      · unfold Archive.insertStep at h'
        split at h'
        · rcases List.mem_append.mp h' with h'' | h''
          · exact Or.inl h''
          · rename_i hc
            right
            refine ⟨q, by simp, ?_, by simpa using h''⟩
            have := (Bool.and_eq_true _ _).mp hc
            exact of_decide_eq_true this.2
        · exact Or.inl h'
      · exact Or.inr ⟨p, by simp [hp], hpos, rfl⟩

theorem priceHistoryImport_called (store : List Archive.Row)
    (fetch : Option Archive.ApifyData) (asin country : String) :
    (Archive.priceHistoryImport store fetch asin country).called =
      (strUpper country == "US") := by
  unfold Archive.priceHistoryImport
  split <;> rfl

theorem mem_priceHistoryImport (store : List Archive.Row)
    (fetch : Option Archive.ApifyData) (asin country : String) (r : Archive.Row)
    (h : r ∈ (Archive.priceHistoryImport store fetch asin country).store) :
    r ∈ store ∨ ∃ d, fetch = some d ∧ ∃ p ∈ d.price_history, 0 < p.price ∧
      r.price = p.price ∧ r.timestamp = p.timestamp := by
  by_cases hus : (strUpper country == "US" : Bool) = true
  · cases hfetch : fetch with
    | none =>
        left
        simpa [Archive.priceHistoryImport, hus, hfetch] using h
    | some d =>
        rw [hfetch] at h
        simp only [Archive.priceHistoryImport, hus, if_true] at h
        rcases mem_insertAll asin (if country == "IN" then "INR" else "USD")
            (if d.price_history.isEmpty then none else some "apify_import")
            d.price_history store r h with h' | ⟨p, hp, hpos, rfl⟩
        · exact Or.inl h'
        · exact Or.inr ⟨d, rfl, p, hp, hpos, rfl, rfl⟩
  · left
    simpa [Archive.priceHistoryImport, hus] using h

theorem statsOfImported_isSome (l : List Archive.Row) (label : String)
    (h : l ≠ []) : (Archive.statsOfImported l label).isSome = true := by
  cases l with
  | nil => exact absurd rfl h
  | cons x xs => simp [Archive.statsOfImported]

/-- C4.  With at least MIN_SAMPLES = 5 local observations in the window,
statistics come from local data, the store is untouched and the premium
provider is not called; otherwise, after a successful import the store is
re-queried and statistics are returned iff at least 2 observations are
then present; and every row of the resulting store either pre-existed or
is a strictly positive fetched point — no synthetic data is ever
created. -/
theorem resolver_local_priority (store : List Archive.Row)
    (fetch : Option Archive.ApifyData) (asin cutoff : String) (uk : Bool)
    (country : String) :
    (5 ≤ (Archive.sortDesc (Archive.windowRows store asin cutoff)).length →
      Archive.getPriceStats store fetch asin cutoff uk country =
        ⟨Archive.statsOfLocal (Archive.sortDesc (Archive.windowRows store asin cutoff)),
         store, false⟩) ∧
    ((Archive.sortDesc (Archive.windowRows store asin cutoff)).length < 5 →
      (Archive.priceHistoryImport store fetch asin country).ok = true →
      ((Archive.getPriceStats store fetch asin cutoff true country).stats.isSome ↔
        2 ≤ (Archive.sortDesc (Archive.windowRows
              (Archive.priceHistoryImport store fetch asin country).store asin
              cutoff)).length)) ∧
    (∀ r ∈ (Archive.getPriceStats store fetch asin cutoff uk country).store,
      r ∈ store ∨ ∃ d, fetch = some d ∧ ∃ p ∈ d.price_history, 0 < p.price ∧
        r.price = p.price ∧ r.timestamp = p.timestamp) := by
  refine ⟨fun h5 => ?_, fun h5 hok => ?_, fun r hr => ?_⟩
  · simp only [Archive.getPriceStats]
    rw [if_pos h5]
  · simp only [Archive.getPriceStats]
    rw [if_neg (not_le.mpr h5)]
    simp only [if_true]
    rw [if_pos hok]
    by_cases h2 : 2 ≤ (Archive.sortDesc (Archive.windowRows
        (Archive.priceHistoryImport store fetch asin country).store asin
        cutoff)).length
    · rw [if_pos h2]
      have hne : Archive.sortDesc (Archive.windowRows
          (Archive.priceHistoryImport store fetch asin country).store asin
          cutoff) ≠ [] := by
        intro he
        rw [he] at h2
        simp at h2
      simp [h2, statsOfImported_isSome _ _ hne]
    · rw [if_neg h2]
      simp [h2]
  · simp only [Archive.getPriceStats] at hr
    split_ifs at hr with h5 huk hok h2
    · exact Or.inl hr
    · exact mem_priceHistoryImport store fetch asin country r hr
    · exact mem_priceHistoryImport store fetch asin country r hr
    · exact mem_priceHistoryImport store fetch asin country r hr
    · exact Or.inl hr

/-- First row of the five-observation witness store. -/
def archRow1 : Archive.Row :=
  ⟨"A", 100, "INR", "2024-01-01T00:00:00", some "extension"⟩

/-- A store holding five observations of product "A". -/
def archStore5 : List Archive.Row :=
  [archRow1,
   ⟨"A", 102, "INR", "2024-01-02T00:00:00", some "extension"⟩,
   ⟨"A", 98, "INR", "2024-01-03T00:00:00", some "extension"⟩,
   ⟨"A", 101, "INR", "2024-01-04T00:00:00", some "extension"⟩,
   ⟨"A", 99, "INR", "2024-01-05T00:00:00", some "extension"⟩]

/-- A cutoff below every timestamp of `archStore5`. -/
def cutA : String := "2023-12-31T00:00:00"

/-- A fetched premium history with two positive points. -/
def apifyD : Archive.ApifyData :=
  ⟨"A", "title", 11,
   [⟨"2024-01-02T00:00:00", 10⟩, ⟨"2024-01-03T00:00:00", 11⟩],
   10, 11, 10.5, 2⟩

/-- C4 witness: on a five-observation store the resolver answers from
local data without touching the store; on an empty store with a
successful two-point import the degraded `>= 2` rule decides; and each
resulting row is accounted for. -/
theorem resolver_local_priority_witness :
    Archive.getPriceStats archStore5 none "A" cutA true "IN" =
      ⟨Archive.statsOfLocal (Archive.sortDesc (Archive.windowRows archStore5 "A" cutA)),
       archStore5, false⟩ ∧
    ((Archive.getPriceStats [] (some apifyD) "A" cutA true "US").stats.isSome ↔
      2 ≤ (Archive.sortDesc (Archive.windowRows
            (Archive.priceHistoryImport [] (some apifyD) "A" "US").store "A"
            cutA)).length) ∧
    (archRow1 ∈ archStore5 ∨ ∃ d, (none : Option Archive.ApifyData) = some d ∧
      ∃ p ∈ d.price_history, 0 < p.price ∧ archRow1.price = p.price ∧
        archRow1.timestamp = p.timestamp) := by
  have ha := (resolver_local_priority archStore5 none "A" cutA true "IN").1
    (by decide)
  refine ⟨ha, ?_, ?_⟩
  · exact (resolver_local_priority [] (some apifyD) "A" cutA true "US").2.1
      (by decide) rfl
  · refine (resolver_local_priority archStore5 none "A" cutA true "IN").2.2
      archRow1 ?_
    rw [ha]
    exact List.mem_cons_self _ _

/-- C5.  The premium provider is consulted only for the "US" market: for
any other market it is never called, and for "US" with fewer than
MIN_SAMPLES = 5 local observations the import (and hence the provider
call) happens within the resolution — before any insufficient-data result
can be returned. -/
theorem premium_gating (store : List Archive.Row)
    (fetch : Option Archive.ApifyData) (asin cutoff : String) (uk : Bool)
    (country : String) :
    (¬ strUpper country = "US" →
      (Archive.getPriceStats store fetch asin cutoff uk country).premiumCalled =
        false) ∧
    (strUpper country = "US" →
      (Archive.sortDesc (Archive.windowRows store asin cutoff)).length < 5 →
      (Archive.getPriceStats store fetch asin cutoff true country).premiumCalled =
        true) := by
  constructor
  · intro hus
    simp only [Archive.getPriceStats]
    split_ifs with h5 huk hok h2
    · rfl
    all_goals try
      (show (Archive.priceHistoryImport store fetch asin country).called = false;
       rw [priceHistoryImport_called];
       simp [beq_eq_false_iff_ne, hus])
    rfl
  · intro hus h5
    simp only [Archive.getPriceStats]
    rw [if_neg (not_le.mpr h5)]
    simp only [if_true]
    split_ifs with hok h2 <;>
      (show (Archive.priceHistoryImport store fetch asin country).called = true;
       rw [priceHistoryImport_called];
       simp [hus])

/-- C5 witness: for market "IN" the provider is not called even with no
local data; for market "US" with an empty store it is called. -/
theorem premium_gating_witness :
    (Archive.getPriceStats [] none "A" cutA true "IN").premiumCalled = false ∧
    (Archive.getPriceStats [] (some apifyD) "A" cutA true "US").premiumCalled =
      true :=
  ⟨(premium_gating [] none "A" cutA true "IN").1 (by decide),
   (premium_gating [] (some apifyD) "A" cutA true "US").2 (by decide) (by decide)⟩

/-- C6.  Importing the same external history twice is idempotent: every
point whose (product_id, timestamp) pair already exists in the local store
is skipped, so the second import inserts zero new rows — the store, and
hence its row count, is unchanged. -/
theorem import_idempotent (store : List Archive.Row)
    (fetch : Option Archive.ApifyData) (asin country : String) :
    (Archive.priceHistoryImport
        (Archive.priceHistoryImport store fetch asin country).store fetch asin
        country).store =
      (Archive.priceHistoryImport store fetch asin country).store ∧
    (Archive.priceHistoryImport
        (Archive.priceHistoryImport store fetch asin country).store fetch asin
        country).store.length =
      (Archive.priceHistoryImport store fetch asin country).store.length := by
  have key : (Archive.priceHistoryImport
      (Archive.priceHistoryImport store fetch asin country).store fetch asin
      country).store =
      (Archive.priceHistoryImport store fetch asin country).store := by
    by_cases hus : (strUpper country == "US" : Bool) = true
    · cases hfetch : fetch with
      | none => simp [Archive.priceHistoryImport, hus]
      | some d =>
          simp only [Archive.priceHistoryImport, hus, if_true]
          exact insertAll_idem asin _ _ store d.price_history
    · have hf : (strUpper country == "US") = false := by simpa using hus
      simp [Archive.priceHistoryImport, hf]
  exact ⟨key, by rw [key]⟩

/-- C9.  Every row the importer adds to the store is strictly positive
(pre-existing rows aside); the premium parser drops null out-of-stock
prices and rejects a response with no strictly positive point, returning
None, which the importer treats as a fetch failure leaving the store
untouched; and the Keepa parser never emits a point carrying its -1
out-of-stock sentinel. -/
theorem positive_import (store : List Archive.Row)
    (fetch : Option Archive.ApifyData) (asin country title : String)
    (entries : List Apify.RawEntry) (csv : List ℤ) :
    (∀ r ∈ (Archive.priceHistoryImport store fetch asin country).store,
      r ∈ store ∨ 0 < r.price) ∧
    ((∀ e ∈ entries, ∀ p, e.price = some p → ¬ 0 < p) →
      Apify.parseResponse entries asin title = none) ∧
    (Archive.priceHistoryImport store none asin country =
      ⟨(strUpper country == "US"), false, store⟩) ∧
    (∀ q ∈ Keepa.parseHistory csv, q.price ≠ (-1 : ℚ) / 100) := by
  refine ⟨fun r hr => ?_, fun h => ?_, ?_, fun q hq => ?_⟩
  · rcases mem_priceHistoryImport store fetch asin country r hr with
      h' | ⟨d, _, p, _, hpos, hpr, _⟩
    · exact Or.inl h'
    · right
      rw [hpr]
      exact hpos
  · unfold Apify.parseResponse
    split_ifs with he
    · rfl
    · have hnil : ((entries.filterMap fun e =>
          e.price.map fun p =>
            (⟨Apify.entryTimestamp e, p⟩ : Archive.PricePoint)).filter
          fun q => decide (0 < q.price)) = [] := by
        rw [List.filter_eq_nil_iff]
        intro q hq
        rcases List.mem_filterMap.mp hq with ⟨e, he', hmap⟩
        rcases Option.map_eq_some'.mp hmap with ⟨p, hp, hqe⟩
        have hneg := h e he' p hp
        rw [← hqe]
        simpa using hneg
      simp [hnil]
  · by_cases hus : (strUpper country == "US" : Bool) = true
    · simp [Archive.priceHistoryImport, hus]
    · have hf : (strUpper country == "US") = false := by simpa using hus
      simp [Archive.priceHistoryImport, hf]
  · unfold Keepa.parseHistory at hq
    rcases List.mem_filterMap.mp hq with ⟨tp, _, hpq⟩
    by_cases hs : tp.2 = -1
    · rw [if_pos hs] at hpq
      cases hpq
    · rw [if_neg hs] at hpq
      rcases Option.some.injEq .. ▸ hpq with rfl
      intro hc
      simp only [] at hc
      apply hs
      field_simp at hc
      exact_mod_cast hc

/-- A premium response with no usable point: one null (out-of-stock)
price and one zero price. -/
def entries0 : List Apify.RawEntry :=
  [⟨some "2024-01-01", some 0⟩, ⟨some "2024-01-02", none⟩]

/-- C9 witness: the two-entry response with no positive price parses to
None, and a pre-existing row is accounted for by the importer. -/
theorem positive_import_witness :
    Apify.parseResponse entries0 "B0" "title" = none ∧
    (archRow1 ∈ ([archRow1] : List Archive.Row) ∨ 0 < archRow1.price) := by
  constructor
  · refine (positive_import [] none "B0" "IN" "title" entries0 []).2.1 ?_
    intro e he p hp
    rcases List.mem_cons.mp he with rfl | he'
    · rw [Option.some.injEq] at hp
      rw [← hp]
      norm_num
    · rcases List.mem_cons.mp he' with rfl | he''
      · cases hp
      · exact absurd he'' (by simp)
  · exact (positive_import [archRow1] none "A" "IN" "title" entries0 []).1
      archRow1 (List.mem_cons_self _ _)

/-- The empty database for the C10 witness. -/
def db0 : Live.DB := ⟨[], []⟩

/-- C10.  `track_price` returns True exactly on success and False on any
storage failure (it never raises); the upsert and the history append
happen in one transaction, so on False the database is unchanged, and on
True both writes are applied. -/
theorem track_price_atomic (db : Live.DB) (fail : Live.FailPoint)
    (asin : String) (current_price : ℚ)
    (currency marketplace source now : String) :
    ((Live.trackPrice db fail asin current_price currency marketplace source
        now).1 = true ↔ fail = Live.FailPoint.ok) ∧
    ((Live.trackPrice db fail asin current_price currency marketplace source
        now).1 = false →
      (Live.trackPrice db fail asin current_price currency marketplace source
        now).2 = db) ∧
    ((Live.trackPrice db fail asin current_price currency marketplace source
        now).1 = true →
      (Live.trackPrice db fail asin current_price currency marketplace source
          now).2.history =
        db.history ++ [⟨asin, current_price, currency, marketplace, source, now⟩] ∧
      (Live.trackPrice db fail asin current_price currency marketplace source
          now).2.tracked =
        Live.upsertTracked db.tracked asin currency marketplace now) := by
  cases fail <;> simp [Live.trackPrice]

/-- C10 witness: a failure at the history insert leaves the empty
database unchanged; a successful call appends exactly the one history
row. -/
theorem track_price_atomic_witness :
    (Live.trackPrice db0 Live.FailPoint.atInsert "A" 10 "INR" "IN" "extension"
        "2024-01-01T00:00:00").2 = db0 ∧
    (Live.trackPrice db0 Live.FailPoint.ok "A" 10 "INR" "IN" "extension"
        "2024-01-01T00:00:00").2.history =
      db0.history ++ [⟨"A", 10, "INR", "IN", "extension",
        "2024-01-01T00:00:00"⟩] := by
  refine ⟨(track_price_atomic db0 Live.FailPoint.atInsert "A" 10 "INR" "IN"
      "extension" "2024-01-01T00:00:00").2.1 rfl, ?_⟩
  exact ((track_price_atomic db0 Live.FailPoint.ok "A" 10 "INR" "IN"
      "extension" "2024-01-01T00:00:00").2.2 rfl).1

end GhostPrice
